import Mathlib

/-!
Verification development for the customer-support chat application
(`src/app.py`). The app keeps, per customer id, an active conversation
(a JSON file `chats/customer_<id>.json`) and an append-only history log
(`chats/customer_<id>_history.json`). We embed the storage layer
(including the JSON text encoding used by `json.dump(..., indent=2,
ensure_ascii=False)` and `json.load`), the session operations (lazy load,
user/assistant append, New Chat reset) and the streaming consumption
loop, and prove the specified properties about them.
-/

namespace SupportBot

/-- A chat message, `{"role": ..., "content": ...}` in `app.py`. -/
structure Message where
  role : String
  content : String
deriving DecidableEq, Repr

/-! ### JSON text encoding layer

`save_chat`/`save_to_history` write records with
`json.dump(chat, f, indent=2, ensure_ascii=False)`; `load_chat` and the
history display read them back with `json.load`. We model the exact text
produced by `json.dump` for a list of `{"role", "content"}` dicts
(string escaping of `"`, `\` and control characters; all other
characters, non-ASCII included, written literally; `indent=2` layout)
and model `json.load` by a decoder for records of that shape. -/

/-- Lower-case hex digit, as used by Python's `\uXXXX` escapes. -/
def hexDigit (n : Nat) : Char :=
  if n < 10 then Char.ofNat (48 + n) else Char.ofNat (87 + n)

/-- Value of a hex digit character (`json.load` accepts both cases). -/
def hexVal (c : Char) : Option Nat :=
  if 48 ≤ c.toNat ∧ c.toNat ≤ 57 then some (c.toNat - 48)
  else if 97 ≤ c.toNat ∧ c.toNat ≤ 102 then some (c.toNat - 87)
  else if 65 ≤ c.toNat ∧ c.toNat ≤ 70 then some (c.toNat - 55)
  else none

/-- How Python's json encoder (`ensure_ascii=False`) writes one character
inside a JSON string: `"` and `\` are backslash-escaped, the control
characters with short escapes use them, the remaining control characters
become `\u00XX`, and every other character (all of non-ASCII Unicode
included) is written literally. -/
def escChar (c : Char) : List Char :=
  if c = '"' then ['\\', '"']
  else if c = '\\' then ['\\', '\\']
  else if c = '\n' then ['\\', 'n']
  else if c = '\t' then ['\\', 't']
  else if c = '\r' then ['\\', 'r']
  else if c.toNat = 8 then ['\\', 'b']
  else if c.toNat = 12 then ['\\', 'f']
  else if c.toNat < 32 then ['\\', 'u', '0', '0', hexDigit (c.toNat / 16), hexDigit (c.toNat % 16)]
  else [c]

/-- The body of a JSON string literal for the text `s`. -/
def escape (s : List Char) : List Char :=
  (s.map escChar).flatten

/-- JSON short escapes, as accepted by `json.load`. -/
def unescCode (c : Char) : Option Char :=
  if c = '"' then some '"'
  else if c = '\\' then some '\\'
  else if c = '/' then some '/'
  else if c = 'b' then some (Char.ofNat 8)
  else if c = 'f' then some (Char.ofNat 12)
  else if c = 'n' then some '\n'
  else if c = 'r' then some '\r'
  else if c = 't' then some '\t'
  else none

/-- Reads a JSON string body up to and including its closing quote,
undoing the escapes; returns the decoded text and the remaining input.
Models `json.load`'s string scanner on the records our encoder writes. -/
def unescapeStr : List Char → Option (List Char × List Char)
  | [] => none
  | c :: rest =>
    if c = '"' then some ([], rest)
    else if c = '\\' then
      match rest with
      | [] => none
      | e :: rest1 =>
        if e = 'u' then
          match rest1 with
          | a :: b :: c1 :: d :: rest2 =>
            match hexVal a, hexVal b, hexVal c1, hexVal d, unescapeStr rest2 with
            | some ha, some hb, some hc, some hd, some (s, r) =>
              some (Char.ofNat (((ha * 16 + hb) * 16 + hc) * 16 + hd) :: s, r)
            | _, _, _, _, _ => none
          | _ => none
        else
          match unescCode e, unescapeStr rest1 with
          | some ch, some (s, r) => some (ch :: s, r)
          | _, _ => none
    else
      match unescapeStr rest with
      | some (s, r) => some (c :: s, r)
      | none => none

theorem hexVal_hexDigit : ∀ n : Nat, n < 16 → hexVal (hexDigit n) = some n := by
  decide

theorem unescapeStr_quote (rest : List Char) :
    unescapeStr ('"' :: rest) = some ([], rest) := by
  rw [unescapeStr.eq_def]
  simp

theorem unescapeStr_esc (e : Char) (rest : List Char) (he : e ≠ 'u') :
    unescapeStr ('\\' :: e :: rest) =
      match unescCode e, unescapeStr rest with
      | some ch, some (s, r) => some (ch :: s, r)
      | _, _ => none := by
  rw [unescapeStr.eq_def]
  simp [he]

theorem unescapeStr_escu (a b c1 d : Char) (rest : List Char) :
    unescapeStr ('\\' :: 'u' :: a :: b :: c1 :: d :: rest) =
      match hexVal a, hexVal b, hexVal c1, hexVal d, unescapeStr rest with
      | some ha, some hb, some hc, some hd, some (s, r) =>
        some (Char.ofNat (((ha * 16 + hb) * 16 + hc) * 16 + hd) :: s, r)
      | _, _, _, _, _ => none := by
  rw [unescapeStr.eq_def]
  simp

theorem unescapeStr_other (c : Char) (rest : List Char) (hq : c ≠ '"') (hb : c ≠ '\\') :
    unescapeStr (c :: rest) =
      match unescapeStr rest with
      | some (s, r) => some (c :: s, r)
      | none => none := by
  rw [unescapeStr.eq_def]
  simp [hq, hb]

/-- Decoding inverts encoding for a JSON string body followed by its
closing quote: every Unicode text round-trips through the escapes. -/
theorem unescapeStr_escape (s rest : List Char) :
    unescapeStr (escape s ++ '"' :: rest) = some (s, rest) := by
  induction s with
  | nil => simpa [escape] using unescapeStr_quote rest
  | cons c s ih =>
    have hesc : escape (c :: s) = escChar c ++ escape s := by
      simp [escape]
    rw [hesc, List.append_assoc]
    by_cases hq : c = '"'
    · subst hq
      rw [show escChar '"' = ['\\', '"'] from by decide]
      rw [show (['\\', '"'] : List Char) ++ (escape s ++ '"' :: rest)
          = '\\' :: '"' :: (escape s ++ '"' :: rest) from rfl]
      rw [unescapeStr_esc _ _ (by decide), ih]
      rfl
    · by_cases hbs : c = '\\'
      · subst hbs
        rw [show escChar '\\' = ['\\', '\\'] from by decide]
        rw [show (['\\', '\\'] : List Char) ++ (escape s ++ '"' :: rest)
            = '\\' :: '\\' :: (escape s ++ '"' :: rest) from rfl]
        rw [unescapeStr_esc _ _ (by decide), ih]
        rfl
      · by_cases hn : c = '\n'
        · subst hn
          rw [show escChar '\n' = ['\\', 'n'] from by decide]
          rw [show (['\\', 'n'] : List Char) ++ (escape s ++ '"' :: rest)
              = '\\' :: 'n' :: (escape s ++ '"' :: rest) from rfl]
          rw [unescapeStr_esc _ _ (by decide), ih]
          rfl
        · by_cases ht : c = '\t'
          · subst ht
            rw [show escChar '\t' = ['\\', 't'] from by decide]
            rw [show (['\\', 't'] : List Char) ++ (escape s ++ '"' :: rest)
                = '\\' :: 't' :: (escape s ++ '"' :: rest) from rfl]
            rw [unescapeStr_esc _ _ (by decide), ih]
            rfl
          · by_cases hr : c = '\r'
            · subst hr
              rw [show escChar '\r' = ['\\', 'r'] from by decide]
              rw [show (['\\', 'r'] : List Char) ++ (escape s ++ '"' :: rest)
                  = '\\' :: 'r' :: (escape s ++ '"' :: rest) from rfl]
              rw [unescapeStr_esc _ _ (by decide), ih]
              rfl
            · by_cases h8 : c.toNat = 8
              · have hc : c = Char.ofNat 8 := by
                  rw [← h8, Char.ofNat_toNat]
                have he : escChar c = ['\\', 'b'] := by
                  simp [escChar, hq, hbs, hn, ht, hr, h8]
                rw [he]
                rw [show (['\\', 'b'] : List Char) ++ (escape s ++ '"' :: rest)
                    = '\\' :: 'b' :: (escape s ++ '"' :: rest) from rfl]
                rw [unescapeStr_esc _ _ (by decide), ih, hc]
                rfl
              · by_cases h12 : c.toNat = 12
                · have hc : c = Char.ofNat 12 := by
                    rw [← h12, Char.ofNat_toNat]
                  have he : escChar c = ['\\', 'f'] := by
                    simp [escChar, hq, hbs, hn, ht, hr, h8, h12]
                  rw [he]
                  rw [show (['\\', 'f'] : List Char) ++ (escape s ++ '"' :: rest)
                      = '\\' :: 'f' :: (escape s ++ '"' :: rest) from rfl]
                  rw [unescapeStr_esc _ _ (by decide), ih, hc]
                  rfl
                · by_cases hlt : c.toNat < 32
                  · have he : escChar c
                        = ['\\', 'u', '0', '0', hexDigit (c.toNat / 16),
                           hexDigit (c.toNat % 16)] := by
                      simp [escChar, hq, hbs, hn, ht, hr, h8, h12, hlt]
                    rw [he]
                    rw [show (['\\', 'u', '0', '0', hexDigit (c.toNat / 16),
                          hexDigit (c.toNat % 16)] : List Char) ++ (escape s ++ '"' :: rest)
                        = '\\' :: 'u' :: '0' :: '0' :: hexDigit (c.toNat / 16)
                          :: hexDigit (c.toNat % 16) :: (escape s ++ '"' :: rest) from rfl]
                    rw [unescapeStr_escu]
                    rw [show hexVal '0' = some 0 from by decide]
                    rw [hexVal_hexDigit _ (by omega),
                      hexVal_hexDigit _ (Nat.mod_lt _ (by decide)), ih]
                    have hv : ((0 * 16 + 0) * 16 + c.toNat / 16) * 16 + c.toNat % 16
                        = c.toNat := by
                      omega
                    simp only [hv, Char.ofNat_toNat]
                  · have he : escChar c = [c] := by
                      simp [escChar, hq, hbs, hn, ht, hr, h8, h12, hlt]
                    rw [he]
                    rw [show ([c] : List Char) ++ (escape s ++ '"' :: rest)
                        = c :: (escape s ++ '"' :: rest) from rfl]
                    rw [unescapeStr_other c _ hq hbs, ih]

/-- `dropLit lit s` consumes the exact literal `lit` from the front of `s`. -/
def dropLit : List Char → List Char → Option (List Char)
  | [], s => some s
  | _ :: _, [] => none
  | p :: ps, c :: cs => if c = p then dropLit ps cs else none

theorem dropLit_append (lit rest : List Char) : dropLit lit (lit ++ rest) = some rest := by
  induction lit with
  | nil => rfl
  | cons p ps ih => simp [dropLit, ih]

/-- Layout text before a message's `"role"` value (`indent=2`, nesting
depth 2). -/
def litRolePre : List Char :=
  ['{', '\n', ' ', ' ', ' ', ' ', '"', 'r', 'o', 'l', 'e', '"', ':', ' ', '"']

/-- Layout text between the `"role"` value's closing quote and the
`"content"` value's opening quote. -/
def litContentPre : List Char :=
  [',', '\n', ' ', ' ', ' ', ' ', '"', 'c', 'o', 'n', 't', 'e', 'n', 't', '"', ':', ' ', '"']

/-- Layout text after the `"content"` value's closing quote. -/
def litMsgEnd : List Char := ['\n', ' ', ' ', '}']

/-- Layout text opening a non-empty message array. -/
def litChatStart : List Char := ['[', '\n', ' ', ' ']

/-- Layout text between two messages of the array. -/
def litSep : List Char := [',', '\n', ' ', ' ']

/-- Layout text closing a non-empty message array. -/
def litChatEnd : List Char := ['\n', ']']

theorem litRolePre_text : litRolePre = "\x7b\n    \"role\": \"".data := by decide

theorem litContentPre_text : litContentPre = ",\n    \"content\": \"".data := by decide

theorem litMsgEnd_text : litMsgEnd = "\n  \x7d".data := by decide

theorem litChatStart_text : litChatStart = "[\n  ".data := by decide

theorem litSep_text : litSep = ",\n  ".data := by decide

theorem litChatEnd_text : litChatEnd = "\n]".data := by decide

/-- The text `json.dump(..., indent=2, ensure_ascii=False)` produces for
one `{"role": ..., "content": ...}` element of the message array. -/
def encodeMsg (m : Message) : List Char :=
  litRolePre ++ escape m.role.data ++ '"' :: litContentPre
    ++ escape m.content.data ++ '"' :: litMsgEnd

/-- The `json.dump` text for the comma-separated items of a message
array. -/
def encodeItems : List Message → List Char
  | [] => []
  | [m] => encodeMsg m
  | m :: m2 :: ms => encodeMsg m ++ litSep ++ encodeItems (m2 :: ms)

/-- The full `json.dump(chat, f, indent=2, ensure_ascii=False)` text for
a list of messages. -/
def encodeChat (chat : List Message) : List Char :=
  match chat with
  | [] => ['[', ']']
  | _ :: _ => litChatStart ++ encodeItems chat ++ litChatEnd

/-- `json.load`'s reading of one message object, on records of the shape
our encoder writes. -/
def parseMsg (s : List Char) : Option (Message × List Char) :=
  match dropLit litRolePre s with
  | none => none
  | some s1 =>
    match unescapeStr s1 with
    | none => none
    | some (role, s2) =>
      match dropLit litContentPre s2 with
      | none => none
      | some s3 =>
        match unescapeStr s3 with
        | none => none
        | some (content, s4) =>
          match dropLit litMsgEnd s4 with
          | none => none
          | some s5 => some (⟨String.mk role, String.mk content⟩, s5)

/-- `json.load`'s reading of the non-empty item list: one message, then
either the closing of the array or a separator and further items. The
fuel argument bounds the recursion; `decodeChat` passes the input
length, which always suffices. -/
def parseItems : Nat → List Char → Option (List Message)
  | 0, _ => none
  | fuel + 1, s =>
    match parseMsg s with
    | none => none
    | some (m, s1) =>
      if s1 = litChatEnd then some [m]
      else
        match dropLit litSep s1 with
        | none => none
        | some s2 =>
          match parseItems fuel s2 with
          | none => none
          | some ms => some (m :: ms)

/-- `json.load` on a whole persisted record of the shape `save_chat` and
`save_to_history` write: either the empty array or a non-empty item
list. -/
def decodeChat (s : List Char) : Option (List Message) :=
  if s = ['[', ']'] then some []
  else
    match dropLit litChatStart s with
    | none => none
    | some s1 => parseItems s.length s1

theorem parseMsg_encodeMsg (m : Message) (rest : List Char) :
    parseMsg (encodeMsg m ++ rest) = some (m, rest) := by
  unfold parseMsg encodeMsg
  simp only [List.append_assoc, List.cons_append, dropLit_append, unescapeStr_escape]

theorem encodeMsg_length (m : Message) : 1 ≤ (encodeMsg m).length := by
  simp only [encodeMsg, List.length_append, List.length_cons]
  omega

theorem encodeItems_length (chat : List Message) : chat.length ≤ (encodeItems chat).length := by
  induction chat with
  | nil => simp [encodeItems]
  | cons m ms ih =>
    match ms with
    | [] =>
      have := encodeMsg_length m
      simpa [encodeItems] using this
    | m2 :: ms2 =>
      have h1 := encodeMsg_length m
      simp only [show encodeItems (m :: m2 :: ms2)
          = encodeMsg m ++ litSep ++ encodeItems (m2 :: ms2) from rfl,
        List.length_append, List.length_cons] at ih ⊢
      omega

theorem parseItems_encodeItems (chat : List Message) :
    ∀ fuel : Nat, chat ≠ [] → chat.length ≤ fuel →
      parseItems fuel (encodeItems chat ++ litChatEnd) = some chat := by
  induction chat with
  | nil => intro fuel h; exact absurd rfl h
  | cons m ms ih =>
    intro fuel _ hlen
    match fuel, hlen with
    | fuel + 1, hlen2 =>
      match ms with
      | [] =>
        rw [parseItems, show encodeItems [m] = encodeMsg m from rfl, parseMsg_encodeMsg]
        simp
      | m2 :: ms2 =>
        have hne : litSep ++ (encodeItems (m2 :: ms2) ++ litChatEnd) ≠ litChatEnd := by
          intro h
          rw [show litSep = ',' :: ['\n', ' ', ' '] from rfl,
            show litChatEnd = '\n' :: [']'] from rfl, List.cons_append] at h
          exact absurd (List.cons.inj h).1 (by decide)
        have hrec := ih fuel (by simp) (by simp only [List.length_cons] at hlen2 ⊢; omega)
        rw [parseItems,
          show encodeItems (m :: m2 :: ms2) = encodeMsg m ++ litSep ++ encodeItems (m2 :: ms2)
            from rfl]
        simp only [List.append_assoc, parseMsg_encodeMsg, if_neg hne, dropLit_append, hrec]

/-- `json.load` inverts `json.dump` on every persisted chat record:
the decoder returns exactly the list of messages that was written. -/
theorem decodeChat_encodeChat (chat : List Message) :
    decodeChat (encodeChat chat) = some chat := by
  match chat with
  | [] => rfl
  | m :: ms =>
    have hs : encodeChat (m :: ms) = litChatStart ++ (encodeItems (m :: ms) ++ litChatEnd) := by
      rw [show encodeChat (m :: ms) = litChatStart ++ encodeItems (m :: ms) ++ litChatEnd
        from rfl, List.append_assoc]
    have hne : litChatStart ++ (encodeItems (m :: ms) ++ litChatEnd) ≠ ['[', ']'] := by
      intro h
      rw [show litChatStart = '[' :: ['\n', ' ', ' '] from rfl, List.cons_append,
        show (['[', ']'] : List Char) = '[' :: [']'] from rfl] at h
      have h2 := (List.cons.inj h).2
      rw [List.cons_append] at h2
      exact absurd (List.cons.inj h2).1 (by decide)
    have hfuel : (m :: ms).length
        ≤ (litChatStart ++ (encodeItems (m :: ms) ++ litChatEnd)).length := by
      have h1 := encodeItems_length (m :: ms)
      simp only [List.length_append]
      omega
    unfold decodeChat
    rw [hs, if_neg hne]
    simp only [dropLit_append]
    exact parseItems_encodeItems (m :: ms) _ (by simp) hfuel

/-! ### Storage adapter (`chat_file`, `history_file`, `load_chat`,
`save_chat`, `save_to_history` in `app.py`)

The file system is modelled as a map from paths to file contents; a
missing entry is `os.path.exists(...) = False`. `json.load` on a file
that exists but does not parse raises; operations that may raise return
`Option`, with `none` for the propagated exception. -/

/-- Path-to-contents view of the `chats/` directory. -/
def Files : Type := String → Option (List Char)

/-- `os.path.join(CHAT_DIR, f"customer_{customer_id}.json")`. -/
def chat_file (customer_id : String) : String :=
  "chats/customer_" ++ customer_id ++ ".json"

/-- `os.path.join(CHAT_DIR, f"customer_{customer_id}_history.json")`. -/
def history_file (customer_id : String) : String :=
  "chats/customer_" ++ customer_id ++ "_history.json"

/-- `load_chat`: if the chat file exists, `json.load` it; otherwise the
default single-system-message conversation built from the configured
system prompt. -/
def load_chat (system_prompt customer_id : String) (fs : Files) : Option (List Message) :=
  match fs (chat_file customer_id) with
  | some text => decodeChat text
  | none => some [Message.mk "system" system_prompt]

/-- `save_chat`: overwrite the chat file with the `json.dump` text of the
conversation. -/
def save_chat (customer_id : String) (chat : List Message) (fs : Files) : Files :=
  fun p => if p = chat_file customer_id then some (encodeChat chat) else fs p

/-- The read-or-default step at the top of `save_to_history`: `json.load`
the history file if it exists, else start from `[]`. -/
def read_history_or_empty (customer_id : String) (fs : Files) : Option (List Message) :=
  match fs (history_file customer_id) with
  | some text => decodeChat text
  | none => some []

/-- `save_to_history`: load the existing history (or `[]`), append every
message of `chat` whose role is not `"system"`, in order, and rewrite
the history file. -/
def save_to_history (customer_id : String) (chat : List Message) (fs : Files) : Option Files :=
  match read_history_or_empty customer_id fs with
  | none => none
  | some history =>
    some (fun p =>
      if p = history_file customer_id then
        some (encodeChat (history ++ chat.filter (fun m => m.role != "system")))
      else fs p)

/-- The sidebar history display's read (`os.path.exists` then
`json.load`): `none` both when the file is absent and when it does not
parse. -/
def load_history (customer_id : String) (fs : Files) : Option (List Message) :=
  match fs (history_file customer_id) with
  | none => none
  | some text => decodeChat text

/-! ### Session state and script operations -/

/-- The mutable state a script run sees: `st.session_state.customer_chats`
and the chat files on disk. -/
structure AppState where
  customer_chats : String → Option (List Message)
  files : Files

/-- Pointwise update of the in-memory per-customer map. -/
def setChat (chats : String → Option (List Message)) (customer_id : String)
    (v : Option (List Message)) : String → Option (List Message) :=
  fun k => if k = customer_id then v else chats k

/-- Lines 74–79 of `app.py`: when a customer id was entered and no
in-memory conversation exists for it, `load_chat` it into
`customer_chats`. Python's `if customer_id:` treats only the empty
string as false. -/
def ensure_loaded (system_prompt customer_id : String) (s : AppState) : Option AppState :=
  if customer_id ≠ "" then
    match s.customer_chats customer_id with
    | some _ => some s
    | none =>
      match load_chat system_prompt customer_id s.files with
      | none => none
      | some chat => some { s with customer_chats := setChat s.customer_chats customer_id (some chat) }
  else some s

/-- Lines 87–99 of `app.py`, the New Chat button handler: archive the
current in-memory conversation with `save_to_history`, replace it with
the fresh single-system-message conversation, and `save_chat` the fresh
conversation. Indexing `customer_chats[customer_id]` raises when the
conversation was never loaded; that propagated exception is `none`. -/
def new_chat (system_prompt customer_id : String) (s : AppState) : Option AppState :=
  if customer_id ≠ "" then
    match s.customer_chats customer_id with
    | none => none
    | some old_chat =>
      match save_to_history customer_id old_chat s.files with
      | none => none
      | some fs1 =>
        some { customer_chats := setChat s.customer_chats customer_id
                 (some [Message.mk "system" system_prompt]),
               files := save_chat customer_id [Message.mk "system" system_prompt] fs1 }
  else some s

/-- One append-and-persist mutation of the active conversation: lines
130–134 (user) and 162–165 (assistant) of `app.py` both append one
message to the in-memory conversation and immediately `save_chat` it. -/
inductive AppendOp where
  | user (text : String)
  | assistant (text : String)
deriving DecidableEq, Repr

/-- The message an `AppendOp` appends. -/
def AppendOp.message : AppendOp → Message
  | .user t => Message.mk "user" t
  | .assistant t => Message.mk "assistant" t

/-- Append one message to the in-memory conversation for `customer_id`
and persist the full conversation via `save_chat` (the write-through
step used at lines 131–134 and 162–165 of `app.py`). -/
def apply_append (customer_id : String) (op : AppendOp) (s : AppState) : Option AppState :=
  match s.customer_chats customer_id with
  | none => none
  | some chat =>
    some { customer_chats := setChat s.customer_chats customer_id (some (chat ++ [op.message])),
           files := save_chat customer_id (chat ++ [op.message]) s.files }

/-- A sequence of append-and-persist mutations, applied in order. -/
def run_appends (customer_id : String) (ops : List AppendOp) (s : AppState) : Option AppState :=
  match ops with
  | [] => some s
  | op :: rest =>
    match apply_append customer_id op s with
    | none => none
    | some s2 => run_appends customer_id rest s2

/-! ### Completion streaming (lines 143–160 of `app.py`) -/

/-- Outcome of `client.chat.completions.create(..., stream=True)` plus
the consumption loop: either a finite sequence of stream events, each
carrying an optional text delta (`chunk.choices[0].delta.content`), or
an exception `e` raised by the transport or backend. -/
inductive StreamResult where
  | ok (chunks : List (Option String))
  | err (e : String)

/-- The consumption loop of lines 152–156: `streamed_text` starts empty
and each chunk contributes `delta.content or ""`. -/
def consume_stream (chunks : List (Option String)) : String :=
  chunks.foldl (fun acc c => acc ++ c.getD "") ""

/-- The final `streamed_text`: the loop's concatenation on success, or
the `f"⚠️ Error: {e}"` placeholder built by the `except` branch. -/
def assemble : StreamResult → String
  | .ok chunks => consume_stream chunks
  | .err e => "⚠️ Error: " ++ e

/-- Lines 130–165 of `app.py`: when both the input text and the customer
id are non-empty, append the user message and persist, stream the reply
(or fall into the `except` branch), then append the assistant message
holding `streamed_text` and persist again. -/
def handle_user_input (customer_id user_input : String) (res : StreamResult)
    (s : AppState) : Option AppState :=
  if user_input ≠ "" ∧ customer_id ≠ "" then
    match s.customer_chats customer_id with
    | none => none
    | some chat =>
      let chat1 := chat ++ [Message.mk "user" user_input]
      let fs1 := save_chat customer_id chat1 s.files
      let chat2 := chat1 ++ [Message.mk "assistant" (assemble res)]
      some { customer_chats := setChat s.customer_chats customer_id (some chat2),
             files := save_chat customer_id chat2 fs1 }
  else some s

/-! ### Storage helper lemmas -/

theorem chat_file_ne_history_file (customer_id : String) :
    chat_file customer_id ≠ history_file customer_id := by
  intro h
  have hlen := congrArg String.length h
  simp only [chat_file, history_file, String.length_append] at hlen
  have h1 : String.length ".json" = 5 := by decide
  have h2 : String.length "_history.json" = 13 := by decide
  omega

theorem save_chat_self (customer_id : String) (chat : List Message) (fs : Files) :
    save_chat customer_id chat fs (chat_file customer_id) = some (encodeChat chat) := by
  simp [save_chat]

theorem save_chat_other (customer_id : String) (chat : List Message) (fs : Files)
    (p : String) (h : p ≠ chat_file customer_id) :
    save_chat customer_id chat fs p = fs p := by
  simp [save_chat, h]

theorem load_chat_save_chat (system_prompt customer_id : String) (chat : List Message)
    (fs : Files) :
    load_chat system_prompt customer_id (save_chat customer_id chat fs) = some chat := by
  simp only [load_chat, save_chat_self, decodeChat_encodeChat]

theorem read_history_of_eq (customer_id : String) (l : List Message) (fs : Files)
    (h : fs (history_file customer_id) = some (encodeChat l)) :
    read_history_or_empty customer_id fs = some l := by
  simp only [read_history_or_empty, h, decodeChat_encodeChat]

theorem save_to_history_spec (customer_id : String) (chat hist : List Message) (fs : Files)
    (hh : read_history_or_empty customer_id fs = some hist) :
    save_to_history customer_id chat fs
      = some (fun p =>
          if p = history_file customer_id then
            some (encodeChat (hist ++ chat.filter (fun m => m.role != "system")))
          else fs p) := by
  simp only [save_to_history, hh]

/-- Full characterization of the New Chat handler on a loaded
conversation and a readable history record. -/
theorem new_chat_spec
    (system_prompt customer_id : String) (s : AppState) (conv hist : List Message)
    (hcid : customer_id ≠ "")
    (hconv : s.customer_chats customer_id = some conv)
    (hh : read_history_or_empty customer_id s.files = some hist) :
    new_chat system_prompt customer_id s
      = some { customer_chats := setChat s.customer_chats customer_id
                 (some [Message.mk "system" system_prompt]),
               files := save_chat customer_id [Message.mk "system" system_prompt]
                 (fun p =>
                   if p = history_file customer_id then
                     some (encodeChat (hist ++ conv.filter (fun m => m.role != "system")))
                   else s.files p) } := by
  rw [new_chat, if_pos hcid]
  simp only [hconv, save_to_history_spec customer_id conv hist s.files hh]

/-- Write-through invariant preserved by any sequence of append
mutations: if the persisted active record currently holds exactly the
in-memory conversation, it still does after the whole sequence. -/
theorem run_appends_inv (customer_id : String) (ops : List AppendOp) :
    ∀ (s : AppState) (c : List Message),
      s.customer_chats customer_id = some c →
      s.files (chat_file customer_id) = some (encodeChat c) →
      ∃ s2 c2, run_appends customer_id ops s = some s2
        ∧ s2.customer_chats customer_id = some c2
        ∧ s2.files (chat_file customer_id) = some (encodeChat c2) := by
  induction ops with
  | nil => exact fun s c h1 h2 => ⟨s, c, rfl, h1, h2⟩
  | cons op rest ih =>
    intro s c h1 h2
    have hstep : apply_append customer_id op s
        = some { customer_chats := setChat s.customer_chats customer_id
                   (some (c ++ [op.message])),
                 files := save_chat customer_id (c ++ [op.message]) s.files } := by
      simp only [apply_append, h1]
    obtain ⟨s2, c2, hrun, hc2, hf2⟩ :=
      ih { customer_chats := setChat s.customer_chats customer_id (some (c ++ [op.message])),
           files := save_chat customer_id (c ++ [op.message]) s.files }
        (c ++ [op.message]) (by simp [setChat]) (by simp [save_chat])
    exact ⟨s2, c2, by simp only [run_appends, hstep]; exact hrun, hc2, hf2⟩

/-- C1: for every customer id and every active conversation,
`resetConversation` (the New Chat handler) replaces the active
conversation with exactly the single default system message, persists
that fresh conversation as the new active record, and every non-system
message of the prior conversation appears, in its original order, at
the tail of the history log. -/
theorem new_chat_resets_and_archives
    (system_prompt customer_id : String) (s : AppState) (conv hist : List Message)
    (hcid : customer_id ≠ "")
    (hconv : s.customer_chats customer_id = some conv)
    (hh : read_history_or_empty customer_id s.files = some hist) :
    ∃ s2, new_chat system_prompt customer_id s = some s2
      ∧ s2.customer_chats customer_id = some [Message.mk "system" system_prompt]
      ∧ load_chat system_prompt customer_id s2.files
          = some [Message.mk "system" system_prompt]
      ∧ read_history_or_empty customer_id s2.files
          = some (hist ++ conv.filter (fun m => m.role != "system")) := by
  rw [new_chat_spec system_prompt customer_id s conv hist hcid hconv hh]
  refine ⟨_, rfl, by simp [setChat], load_chat_save_chat _ _ _ _, ?_⟩
  apply read_history_of_eq
  have hne2 : history_file customer_id ≠ chat_file customer_id :=
    Ne.symm (chat_file_ne_history_file customer_id)
  simp [save_chat, hne2]

/-- C2: for every customer id and every sequence of
`appendUserMessage`/`appendAssistantMessage` calls on a loaded
conversation, after each call the persisted active record equals the
in-memory conversation exactly (write-through on every mutation); this
covers every prefix since `ops` ranges over all sequences. -/
theorem write_through_on_every_mutation
    (system_prompt customer_id : String) (ops : List AppendOp) (s : AppState)
    (c0 : List Message)
    (hloaded : s.customer_chats customer_id = some c0)
    (hne : ops ≠ []) :
    ∃ s2 c2, run_appends customer_id ops s = some s2
      ∧ s2.customer_chats customer_id = some c2
      ∧ s2.files (chat_file customer_id) = some (encodeChat c2)
      ∧ load_chat system_prompt customer_id s2.files = some c2 := by
  match ops, hne with
  | op :: rest, _ =>
    have hstep : apply_append customer_id op s
        = some { customer_chats := setChat s.customer_chats customer_id
                   (some (c0 ++ [op.message])),
                 files := save_chat customer_id (c0 ++ [op.message]) s.files } := by
      simp only [apply_append, hloaded]
    obtain ⟨s2, c2, hrun, hc2, hf2⟩ :=
      run_appends_inv customer_id rest
        { customer_chats := setChat s.customer_chats customer_id
            (some (c0 ++ [op.message])),
          files := save_chat customer_id (c0 ++ [op.message]) s.files }
        (c0 ++ [op.message]) (by simp [setChat]) (by simp [save_chat])
    refine ⟨s2, c2, ?_, hc2, hf2, ?_⟩
    · simp only [run_appends, hstep]
      exact hrun
    · simp only [load_chat, hf2, decodeChat_encodeChat]

/-- C3: `appendHistory` (`save_to_history`) produces a history record
equal to the existing history (the empty log when the file is absent)
followed by exactly the non-system-role messages of the input, in their
original order; no existing entry is removed or reordered. -/
theorem append_history_exact
    (customer_id : String) (chat hist : List Message) (fs : Files)
    (hh : read_history_or_empty customer_id fs = some hist) :
    ∃ fs2, save_to_history customer_id chat fs = some fs2
      ∧ read_history_or_empty customer_id fs2
          = some (hist ++ chat.filter (fun m => m.role != "system")) := by
  rw [save_to_history_spec customer_id chat hist fs hh]
  refine ⟨_, rfl, ?_⟩
  apply read_history_of_eq
  simp

/-- C4: when the streaming call raises, the operation does not crash: an
assistant message whose content starts with the error marker is
appended, the conversation is persisted with it as last entry, and all
prior messages are preserved unchanged. -/
theorem stream_error_handled
    (system_prompt customer_id user_input e : String) (s : AppState) (conv : List Message)
    (hui : user_input ≠ "") (hcid : customer_id ≠ "")
    (hconv : s.customer_chats customer_id = some conv) :
    ∃ s2, handle_user_input customer_id user_input (StreamResult.err e) s = some s2
      ∧ s2.customer_chats customer_id
          = some (conv ++ [Message.mk "user" user_input,
              Message.mk "assistant" ("⚠️ Error: " ++ e)])
      ∧ load_chat system_prompt customer_id s2.files
          = some (conv ++ [Message.mk "user" user_input,
              Message.mk "assistant" ("⚠️ Error: " ++ e)])
      ∧ ∃ restText, "⚠️ Error: " ++ e = "⚠️ Error:" ++ restText := by
  rw [handle_user_input, if_pos ⟨hui, hcid⟩]
  simp only [hconv]
  refine ⟨_, rfl, by simp [setChat, assemble], ?_, ?_⟩
  · have h := load_chat_save_chat system_prompt customer_id
      ((conv ++ [Message.mk "user" user_input])
        ++ [Message.mk "assistant" (assemble (StreamResult.err e))])
      (save_chat customer_id (conv ++ [Message.mk "user" user_input]) s.files)
    simpa [assemble] using h
  · exact ⟨" " ++ e, by
      rw [← String.append_assoc,
        show ("⚠️ Error:" ++ " " : String) = "⚠️ Error: " from by decide]⟩

/-- C5: for a customer id never seen before (no in-memory conversation
and no stored active record), the lazy load yields exactly one message,
with role `system` and content the configured default prompt. -/
theorem fresh_customer_default
    (system_prompt customer_id : String) (s : AppState)
    (hcid : customer_id ≠ "")
    (hmem : s.customer_chats customer_id = none)
    (hfile : s.files (chat_file customer_id) = none) :
    ∃ s2, ensure_loaded system_prompt customer_id s = some s2
      ∧ s2.customer_chats customer_id = some [Message.mk "system" system_prompt] := by
  rw [ensure_loaded, if_pos hcid]
  simp only [hmem, load_chat, hfile]
  exact ⟨_, rfl, by simp [setChat]⟩

/-- C6: the final assistant text equals the concatenation of the stream
events' deltas in arrival order, an event with no delta contributing the
empty string; in particular fragments "Hi" then " there" sent for "Hello"
by customer "C1" yield the stored 3-message conversation ending in
assistant "Hi there". -/
theorem stream_concatenation :
    (∀ chunks : List (Option String),
        consume_stream chunks = String.join (chunks.map (fun c => c.getD "")))
      ∧ (∃ s2, handle_user_input "C1" "Hello" (StreamResult.ok [some "Hi", some " there"])
            { customer_chats := fun k =>
                if k = "C1" then some [Message.mk "system" "prompt"] else none,
              files := fun _ => none } = some s2
          ∧ s2.customer_chats "C1" = some [Message.mk "system" "prompt",
              Message.mk "user" "Hello", Message.mk "assistant" "Hi there"]) := by
  constructor
  · intro chunks
    simp [consume_stream, String.join, List.foldl_map]
  · exact ⟨_, rfl, by decide⟩

/-- C7: resetting a conversation that contains only the single system
message appends zero messages to the history log: the history contents
are unchanged. -/
theorem reset_only_system_no_history_growth
    (system_prompt prompt0 customer_id : String) (s : AppState) (hist : List Message)
    (hcid : customer_id ≠ "")
    (hconv : s.customer_chats customer_id = some [Message.mk "system" prompt0])
    (hh : read_history_or_empty customer_id s.files = some hist) :
    ∃ s2, new_chat system_prompt customer_id s = some s2
      ∧ read_history_or_empty customer_id s2.files = some hist := by
  rw [new_chat_spec system_prompt customer_id s _ hist hcid hconv hh]
  refine ⟨_, rfl, ?_⟩
  apply read_history_of_eq
  have hne2 : history_file customer_id ≠ chat_file customer_id :=
    Ne.symm (chat_file_ne_history_file customer_id)
  simp [save_chat, hne2, List.filter]

/-- C8: saving any conversation — non-ASCII Unicode content included —
with `save_chat` and loading it back with `load_chat` yields content
identical to what was saved. -/
theorem persistence_round_trip
    (system_prompt customer_id : String) (chat : List Message) (fs : Files) :
    load_chat system_prompt customer_id (save_chat customer_id chat fs) = some chat :=
  load_chat_save_chat system_prompt customer_id chat fs

/-- C9: when the supplied customer id is empty, the core performs no
operation: the lazy load, the New Chat handler and the input handler all
leave the state exactly as it was. -/
theorem empty_customer_id_noop
    (system_prompt user_input : String) (res : StreamResult) (s : AppState) :
    ensure_loaded system_prompt "" s = some s
      ∧ new_chat system_prompt "" s = some s
      ∧ handle_user_input "" user_input res s = some s := by
  refine ⟨?_, ?_, ?_⟩
  · rw [ensure_loaded, if_neg (by simp)]
  · rw [new_chat, if_neg (by simp)]
  · rw [handle_user_input, if_neg (by simp)]

/-- C10: after any `save_to_history` call — even one whose input has no
non-system message — the history record exists and a subsequent load
returns a (possibly empty) history list rather than NotFound; archiving
a fresh conversation over an absent history file creates an empty
history record. -/
theorem append_history_creates_record
    (customer_id : String) (chat hist : List Message) (fs : Files)
    (hh : read_history_or_empty customer_id fs = some hist) :
    ∃ fs2, save_to_history customer_id chat fs = some fs2
      ∧ (∃ text, fs2 (history_file customer_id) = some text)
      ∧ load_history customer_id fs2
          = some (hist ++ chat.filter (fun m => m.role != "system"))
      ∧ (fs (history_file customer_id) = none →
          chat.filter (fun m => m.role != "system") = [] →
          load_history customer_id fs2 = some []) := by
  rw [save_to_history_spec customer_id chat hist fs hh]
  refine ⟨_, rfl,
    ⟨encodeChat (hist ++ chat.filter (fun m => m.role != "system")), by simp⟩, ?_, ?_⟩
  · simp [load_history, decodeChat_encodeChat]
  · intro habs hfil
    have hhist : hist = [] := by
      have hh2 := hh
      simp only [read_history_or_empty, habs, Option.some.injEq] at hh2
      exact hh2.symm
    simp [load_history, hhist, hfil, decodeChat_encodeChat]

/-! ### Concrete witnesses -/

theorem new_chat_resets_and_archives_witness :
    (("a" : String) ≠ ""
      ∧ (AppState.mk
          (fun k => if k = "a"
            then some [Message.mk "system" "p", Message.mk "user" "q"] else none)
          (fun _ => none)).customer_chats "a"
          = some [Message.mk "system" "p", Message.mk "user" "q"]
      ∧ read_history_or_empty "a"
          (AppState.mk
            (fun k => if k = "a"
              then some [Message.mk "system" "p", Message.mk "user" "q"] else none)
            (fun _ => none)).files = some [])
    ∧ (∃ s2, new_chat "p" "a"
          (AppState.mk
            (fun k => if k = "a"
              then some [Message.mk "system" "p", Message.mk "user" "q"] else none)
            (fun _ => none)) = some s2
        ∧ s2.customer_chats "a" = some [Message.mk "system" "p"]
        ∧ load_chat "p" "a" s2.files = some [Message.mk "system" "p"]
        ∧ read_history_or_empty "a" s2.files
            = some ([] ++ List.filter (fun m => m.role != "system")
                [Message.mk "system" "p", Message.mk "user" "q"])) :=
  ⟨⟨by decide, by decide, by decide⟩,
    new_chat_resets_and_archives "p" "a" _ [Message.mk "system" "p", Message.mk "user" "q"] []
      (by decide) (by decide) (by decide)⟩

theorem write_through_on_every_mutation_witness :
    ((AppState.mk (fun k => if k = "a" then some [Message.mk "system" "p"] else none)
        (fun _ => none)).customer_chats "a" = some [Message.mk "system" "p"]
      ∧ ([AppendOp.user "x"] : List AppendOp) ≠ [])
    ∧ (∃ s2 c2, run_appends "a" [AppendOp.user "x"]
          (AppState.mk (fun k => if k = "a" then some [Message.mk "system" "p"] else none)
            (fun _ => none)) = some s2
        ∧ s2.customer_chats "a" = some c2
        ∧ s2.files (chat_file "a") = some (encodeChat c2)
        ∧ load_chat "p" "a" s2.files = some c2) :=
  ⟨⟨by decide, by decide⟩,
    write_through_on_every_mutation "p" "a" [AppendOp.user "x"] _ [Message.mk "system" "p"]
      (by decide) (by decide)⟩

theorem append_history_exact_witness :
    (read_history_or_empty "a" (fun _ => none) = some [])
    ∧ (∃ fs2, save_to_history "a" [Message.mk "user" "x"] (fun _ => none) = some fs2
        ∧ read_history_or_empty "a" fs2
            = some ([] ++ List.filter (fun m => m.role != "system")
                [Message.mk "user" "x"])) :=
  ⟨by decide,
    append_history_exact "a" [Message.mk "user" "x"] [] (fun _ => none) (by decide)⟩

theorem stream_error_handled_witness :
    (("x" : String) ≠ "" ∧ ("a" : String) ≠ ""
      ∧ (AppState.mk (fun k => if k = "a" then some [Message.mk "system" "p"] else none)
          (fun _ => none)).customer_chats "a" = some [Message.mk "system" "p"])
    ∧ (∃ s2, handle_user_input "a" "x" (StreamResult.err "boom")
          (AppState.mk (fun k => if k = "a" then some [Message.mk "system" "p"] else none)
            (fun _ => none)) = some s2
        ∧ s2.customer_chats "a"
            = some ([Message.mk "system" "p"] ++ [Message.mk "user" "x",
                Message.mk "assistant" ("⚠️ Error: " ++ "boom")])
        ∧ load_chat "p" "a" s2.files
            = some ([Message.mk "system" "p"] ++ [Message.mk "user" "x",
                Message.mk "assistant" ("⚠️ Error: " ++ "boom")])
        ∧ ∃ restText, "⚠️ Error: " ++ "boom" = "⚠️ Error:" ++ restText) :=
  ⟨⟨by decide, by decide, by decide⟩,
    stream_error_handled "p" "a" "x" "boom" _ [Message.mk "system" "p"]
      (by decide) (by decide) (by decide)⟩

theorem fresh_customer_default_witness :
    (("a" : String) ≠ ""
      ∧ (AppState.mk (fun _ => none) (fun _ => none)).customer_chats "a" = none
      ∧ (AppState.mk (fun _ => none) (fun _ => none)).files (chat_file "a") = none)
    ∧ (∃ s2, ensure_loaded "p" "a" (AppState.mk (fun _ => none) (fun _ => none)) = some s2
        ∧ s2.customer_chats "a" = some [Message.mk "system" "p"]) :=
  ⟨⟨by decide, by decide, by decide⟩,
    fresh_customer_default "p" "a" _ (by decide) (by decide) (by decide)⟩

theorem reset_only_system_no_history_growth_witness :
    (("a" : String) ≠ ""
      ∧ (AppState.mk (fun k => if k = "a" then some [Message.mk "system" "p0"] else none)
          (fun _ => none)).customer_chats "a" = some [Message.mk "system" "p0"]
      ∧ read_history_or_empty "a"
          (AppState.mk (fun k => if k = "a" then some [Message.mk "system" "p0"] else none)
            (fun _ => none)).files = some [])
    ∧ (∃ s2, new_chat "p" "a"
          (AppState.mk (fun k => if k = "a" then some [Message.mk "system" "p0"] else none)
            (fun _ => none)) = some s2
        ∧ read_history_or_empty "a" s2.files = some []) :=
  ⟨⟨by decide, by decide, by decide⟩,
    reset_only_system_no_history_growth "p" "p0" "a" _ []
      (by decide) (by decide) (by decide)⟩

theorem append_history_creates_record_witness :
    (read_history_or_empty "a" (fun _ => none) = some [])
    ∧ (∃ fs2, save_to_history "a" [Message.mk "system" "p"] (fun _ => none) = some fs2
        ∧ (∃ text, fs2 (history_file "a") = some text)
        ∧ load_history "a" fs2
            = some ([] ++ List.filter (fun m => m.role != "system")
                [Message.mk "system" "p"])
        ∧ ((fun _ => (none : Option (List Char))) (history_file "a") = none →
            List.filter (fun m => m.role != "system") [Message.mk "system" "p"] = [] →
            load_history "a" fs2 = some [])) :=
  ⟨by decide,
    append_history_creates_record "a" [Message.mk "system" "p"] [] (fun _ => none) (by decide)⟩

end SupportBot
